import Mathlib

/-!
Verification of the article-freshness classification pipeline
(`src/lib/articles.ts` of the transak-freshness-tracker repository).

The TypeScript source is shallowly embedded as executable Lean functions:

* JS regular-expression tests (no `u` flag) are modelled by explicit scanners
  over `List Char`.  The JS word class is exactly ASCII `[A-Za-z0-9_]`, and a
  word boundary holds between a word character and a non-word character or a
  string edge; both are modelled exactly.  Case-insensitive (`/i`) tests are
  modelled by lowercasing the subject once (ASCII lowering, which matches the
  JS semantics on ASCII input) and matching lowercase literals.  The year
  patterns of the source carry no `/i` flag but consist only of digits and
  boundaries, which are unaffected by lowering.
* The wall-clock reads of the source (`new Date()` for the load instant and
  `new Date().getFullYear()` inside the freshness evaluator) become explicit
  parameters `nowMs` and `currentYear`.  The engine-defined generic date
  parse used as a last-resort fallback becomes an explicit function
  parameter, and the timezone used by the local-midnight `Date` constructions
  becomes an explicit offset (minutes east of UTC).
* JS number arithmetic on the age computation is exact here:
  1000*60*60*24*30.44 equals the integer 2630016000 (30.44 = 761/25).
-/

namespace Freshtrack

/-- JS word-character class (ASCII alphanumerics and underscore). -/
def isWordChar (c : Char) : Bool := c.isAlphanum || c == '_'

/-- ASCII whitespace, the relevant fragment of the JS whitespace class. -/
def isSpaceChar (c : Char) : Bool := c == ' ' || c == '\t' || c == '\n' || c == '\r'

/-- Digit class of the JS patterns, via code points. -/
def isDigitCh (c : Char) : Bool := decide (48 ≤ c.toNat ∧ c.toNat ≤ 57)

/-- Condition imposed on the character immediately after a match. -/
inductive RSide
  | free
  | nonWordOrEnd
  | wordOnly
deriving DecidableEq

/-- Left word-boundary check: when required, the previous character (if any)
must not be a word character. -/
def okLeft (need : Bool) (prev : Option Char) : Bool :=
  !need ||
    (match prev with
     | none => true
     | some c => !(isWordChar c))

/-- Right-side check against the character following the match, if any. -/
def okRight : RSide → Option Char → Bool
  | .free, _ => true
  | .nonWordOrEnd, none => true
  | .nonWordOrEnd, some c => !(isWordChar c)
  | .wordOnly, none => false
  | .wordOnly, some c => isWordChar c

/-- Match a list of character predicates against a prefix of the input. -/
def matchPreds : List (Char → Bool) → List Char → Bool
  | [], _ => true
  | _ :: _, [] => false
  | p :: ps, c :: cs => p c && matchPreds ps cs

/-- Scan for an occurrence of the predicate pattern anywhere in the input,
subject to a left word-boundary flag and a right-side condition; the
previous character is threaded for boundary checks. -/
def scanAux (lb : Bool) (rc : RSide) (ps : List (Char → Bool)) :
    Option Char → List Char → Bool
  | _, [] => false
  | prev, c :: cs =>
    (okLeft lb prev && matchPreds ps (c :: cs) &&
      okRight rc ((c :: cs).drop ps.length).head?)
    || scanAux lb rc ps (some c) cs

/-- Scan for the first admissible occurrence and return the character ending
the match together with the remaining suffix (for sequential patterns). -/
def scanSuffix (lb : Bool) (rc : RSide) (ps : List (Char → Bool)) :
    Option Char → List Char → Option (Option Char × List Char)
  | _, [] => none
  | prev, c :: cs =>
    if okLeft lb prev && matchPreds ps (c :: cs) &&
        okRight rc ((c :: cs).drop ps.length).head? then
      some (((c :: cs).take ps.length).getLast?, (c :: cs).drop ps.length)
    else scanSuffix lb rc ps (some c) cs

/-- Literal string pattern as a predicate list. -/
def litP (s : String) : List (Char → Bool) := s.toList.map (fun c => fun x => x == c)

/-- Wildcard character of the patterns (the JS dot; titles contain no
newlines, so the missing newline exclusion is immaterial). -/
def anyCh : Char → Bool := fun _ => true

/-- Drop leading and trailing whitespace from a character list (charwise
model of the JS trim, kernel-computable). -/
def trimChars (cs : List Char) : List Char :=
  ((cs.dropWhile Char.isWhitespace).reverse.dropWhile Char.isWhitespace).reverse

/-- Charwise string trim. -/
def jsTrim (s : String) : String := String.mk (trimChars s.toList)

/-- Split a character list on commas (charwise model of the JS split). -/
def splitCommaGo (cur : List Char) : List Char → List (List Char)
  | [] => [cur.reverse]
  | c :: cs =>
    if c == ',' then cur.reverse :: splitCommaGo [] cs
    else splitCommaGo (c :: cur) cs

/-- Lowercased character list of a string (models `toLowerCase` on ASCII). -/
def lc (s : String) : List Char := s.toList.map Char.toLower

/-- Lowercased string (models `toLowerCase` on ASCII). -/
def lcString (s : String) : String := String.mk (s.toList.map Char.toLower)

/-- Plain substring occurrence (an unanchored alternative with no boundary). -/
def hasSub (pat : String) (t : List Char) : Bool := scanAux false .free (litP pat) none t

/-- Substring occurrence requiring a left word boundary. -/
def hasSubL (pat : String) (t : List Char) : Bool := scanAux true .free (litP pat) none t

/-- Substring occurrence requiring a right word boundary. -/
def hasSubR (pat : String) (t : List Char) : Bool :=
  scanAux false .nonWordOrEnd (litP pat) none t

/-- Substring occurrence requiring word boundaries on both sides. -/
def hasSubB (pat : String) (t : List Char) : Bool :=
  scanAux true .nonWordOrEnd (litP pat) none t

/-- Anchored test: the input starts with the literal pattern. -/
def startsWithP (pat : String) (t : List Char) : Bool := matchPreds (litP pat) t

/-- Anchored test with a trailing word boundary. -/
def startsWithR (pat : String) (t : List Char) : Bool :=
  matchPreds (litP pat) t && okRight .nonWordOrEnd (t.drop (litP pat).length).head?

/-- Sequential pattern: a first literal, arbitrary characters, then a second
literal with a right-side condition (models alternatives containing a
dot-star between two literals; taking the first occurrence of the first
literal is complete because it maximises the remaining search space). -/
def seqSub (lb1 : Bool) (p1 : String) (rc2 : RSide) (p2 : String) (t : List Char) : Bool :=
  match scanSuffix lb1 .free (litP p1) none t with
  | none => false
  | some (pc, rest) => scanAux false rc2 (litP p2) pc rest

/-- Occurrence of a first literal, one arbitrary character, then a second
literal (models a single dot between literals). -/
def gapSub1 (lb : Bool) (p1 p2 : String) (t : List Char) : Bool :=
  scanAux lb .free (litP p1 ++ [anyCh] ++ litP p2) none t

/-- Occurrence of two literals separated by one optional arbitrary character
(models a dot followed by a question mark). -/
def optGapSub (lb : Bool) (p1 p2 : String) (t : List Char) : Bool :=
  scanAux lb .free (litP (p1 ++ p2)) none t || gapSub1 lb p1 p2 t

/-- Occurrence of a first literal, one arbitrary character, a second literal,
one arbitrary character, and a third literal (two single-dot gaps). -/
def gapSub2 (p1 p2 p3 : String) (t : List Char) : Bool :=
  scanAux false .free (litP p1 ++ [anyCh] ++ litP p2 ++ [anyCh] ++ litP p3) none t

/-! ### Year-token scanners

The source uses three boundary-delimited four-digit year patterns: any year
2020 to 2039, a year 2020 to 2024, and the literal year 2025. -/

/-- Predicate list for a year token 2020 to 2039. -/
def preds2039 : List (Char → Bool) :=
  [fun c => c == '2', fun c => c == '0', fun c => c == '2' || c == '3', isDigitCh]

/-- Predicate list for a year token 2020 to 2024. -/
def preds2024 : List (Char → Bool) :=
  [fun c => c == '2', fun c => c == '0', fun c => c == '2',
   fun c => decide (48 ≤ c.toNat ∧ c.toNat ≤ 52)]

/-- Occurrence of a boundary-delimited year token 2020 to 2039. -/
def hasYear2039 (t : List Char) : Bool := scanAux true .nonWordOrEnd preds2039 none t

/-- Occurrence of a boundary-delimited year token 2020 to 2024. -/
def hasYear2024 (t : List Char) : Bool := scanAux true .nonWordOrEnd preds2024 none t

/-- Occurrence of the boundary-delimited literal year 2025. -/
def has2025 (t : List Char) : Bool := scanAux true .nonWordOrEnd (litP "2025") none t

/-- First boundary-delimited year token 2020 to 2039, returned as a number
(models the match-then-parseInt step of the time-sensitive branch). -/
def findYearTS (prev : Option Char) : List Char → Option Nat
  | c1 :: c2 :: c3 :: c4 :: rest =>
    if okLeft true prev && matchPreds preds2039 (c1 :: c2 :: c3 :: c4 :: rest) &&
        okRight .nonWordOrEnd rest.head? then
      some (2000 + 10 * (c3.toNat - 48) + (c4.toNat - 48))
    else findYearTS (some c1) (c2 :: c3 :: c4 :: rest)
  | c :: cs => findYearTS (some c) cs
  | [] => none

/-! ### Data model -/

/-- The content-type labels of the source. -/
inductive ContentType
  | evergreen
  | semiEvergreen
  | timeSensitive
  | news
deriving DecidableEq, Repr

/-- The freshness tiers of the source. -/
inductive Freshness
  | fresh
  | aging
  | stale
  | needsUpdate
deriving DecidableEq, Repr

/-- A freshness verdict together with its rationale string. -/
structure Verdict where
  freshness : Freshness
  reasoning : String
deriving DecidableEq, Repr

/-! ### detectContentType -/

/-- Category-based news test of `detectContentType`: the lowercased category
list contains one of five exact labels. -/
def detectNewsCats (categories : List String) : Bool :=
  (categories.map lcString).any (fun c =>
    c == "announcements" || c == "partnerships" || c == "new listings" ||
    c == "product" || c == "case studies")

/-- First title-based news alternation of `detectContentType` (partner and
launch phrasing; only the first alternative carries a left boundary). -/
def newsPhrase1 (t : List Char) : Bool :=
  hasSubL "partner" t || hasSub "integrat" t || hasSub "collaborat" t ||
  hasSub "joins forces" t || hasSub "teams up" t || hasSub "powers" t ||
  hasSub "launches" t || hasSub "secures" t || hasSub "expands" t ||
  hasSub "raises" t || hasSub "lists $" t

/-- Second title-based news alternation of `detectContentType` (availability
phrasing; no boundaries). -/
def newsPhrase2 (t : List Char) : Bool :=
  hasSub "now available" t || hasSub "now live" t || hasSub "now on" t ||
  hasSub "now integrated" t || hasSub "is now" t || hasSub "now supports" t

/-- Event-keyword alternation of the time-sensitive rule. -/
def tsEventPhrase (t : List Char) : Bool :=
  hasSub "countdown" t || hasSub "upcoming events" t || hasSub "devcon" t ||
  hasSub "token2049" t || hasSub "ethdenver" t

/-- Quarter token: the letter q followed by a digit 1 to 4 and a word
boundary. -/
def qQuarter (t : List Char) : Bool :=
  scanAux false .nonWordOrEnd
    [fun c => c == 'q', fun c => decide (49 ≤ c.toNat ∧ c.toNat ≤ 52)] none t

/-- Forecast alternation of the time-sensitive rule. -/
def tsForecastPhrase (t : List Char) : Bool :=
  hasSub "price prediction" t || hasSub "forecast" t || qQuarter t

/-- The vs alternation: vs with boundaries on both sides, or vs followed by a
dot and a further word character after a left boundary (the source states it
twice; the union below is its exact semantics). -/
def vsPhrase (t : List Char) : Bool :=
  hasSubB "vs" t || scanAux true .wordOnly (litP "vs.") none t

/-- Conceptual-explainer alternation of the evergreen rule. -/
def evergreenPhrase (t : List Char) : Bool :=
  startsWithR "what is" t || startsWithR "what are" t || startsWithR "what does" t ||
  startsWithR "what makes" t ||
  hasSubB "explained" t || hasSubB "explainer" t ||
  hasSubB "a beginner guide" t || hasSubB "a simple guide" t ||
  hasSubB "a comprehensive guide" t || hasSubB "a detailed guide" t ||
  hasSubB "a step-by-step guide" t ||
  hasSubB "how does" t || hasSubB "how do" t || hasSubB "how to choose" t ||
  hasSubB "how to set up" t || hasSubB "how to enable" t ||
  vsPhrase t ||
  hasSubR "understanding" t || hasSubR "decoding" t || hasSubR "breaking down" t

/-- Direct embedding of `detectContentType` (articles.ts lines 39 to 93).
All tests run over the lowercased title, which is equivalent to the source
because every pattern either carries the i flag or consists of digits and
boundaries. -/
def detectContentType (title : String) (categories : List String) : ContentType :=
  let t := lc title
  if detectNewsCats categories || newsPhrase1 t || newsPhrase2 t then .news
  else if hasYear2039 t || tsEventPhrase t || tsForecastPhrase t then .timeSensitive
  else if evergreenPhrase t then
    if hasYear2039 t then .semiEvergreen else .evergreen
  else if startsWithR "how to" t then .semiEvergreen
  else if (categories.map lcString).any (fun c => c == "podcast") then .evergreen
  else if hasSub "case study" t ||
      (categories.map lcString).any (fun c => hasSub "case stud" c.toList) then
    .semiEvergreen
  else .semiEvergreen

/-! ### assessFreshness -/

/-- Event-or-age tail of the time-sensitive branch (reached when no year
token 2020 to 2039 occurs, or when the detected year lies in the future). -/
def tsAgeLadder (t : List Char) (ageMonths : Nat) : Verdict :=
  if (hasSub "countdown" t || hasSub "upcoming" t) && ageMonths > 3 then
    ⟨.needsUpdate, "Event/countdown content — the event has passed"⟩
  else if ageMonths < 6 then ⟨.fresh, "Recent time-sensitive content"⟩
  else if ageMonths < 12 then ⟨.aging, "Time-sensitive content aging — verify relevance"⟩
  else ⟨.needsUpdate, "Time-sensitive content past its shelf life"⟩

/-- Direct embedding of `assessFreshness` (articles.ts lines 95 to 158).
The source reads the wall clock for the current calendar year inside the
time-sensitive branch; that read is the explicit parameter `currentYear`. -/
def assessFreshness (title : String) (ageMonths : Nat) (contentType : ContentType)
    (currentYear : Int) : Verdict :=
  let t := lc title
  match contentType with
  | .evergreen =>
    if ageMonths < 24 then
      ⟨.fresh, "Evergreen explainer — concepts don\x27t expire quickly"⟩
    else if ageMonths < 36 then
      ⟨.aging, "Evergreen but aging — may benefit from refreshed examples or links"⟩
    else if ageMonths < 48 then
      ⟨.stale, "Evergreen topic but quite old — review for accuracy and outdated references"⟩
    else
      ⟨.needsUpdate, "Evergreen topic but very old — likely has outdated info, screenshots, or broken links"⟩
  | .semiEvergreen =>
    if hasYear2024 t then
      ⟨.needsUpdate, "Title references an older year — reads as outdated to visitors"⟩
    else if has2025 t && ageMonths > 12 then
      ⟨.stale, "Title references 2025 — will soon read as outdated"⟩
    else if ageMonths < 12 then ⟨.fresh, "Recent guide — likely still accurate"⟩
    else if ageMonths < 18 then ⟨.aging, "Guide may have outdated UI screenshots or steps"⟩
    else if ageMonths < 24 then
      ⟨.stale, "Product UIs and processes likely changed since publication"⟩
    else
      ⟨.needsUpdate, "Old guide — high chance of outdated steps, UI changes, or broken links"⟩
  | .timeSensitive =>
    match findYearTS none t with
    | some year =>
      if (year : Int) < currentYear - 1 then
        ⟨.needsUpdate, "References " ++ toString year ++ " — clearly outdated, needs a " ++
          toString currentYear ++ " refresh or archival"⟩
      else if (year : Int) < currentYear then
        ⟨.stale, "References " ++ toString year ++ " — becoming outdated, consider updating for " ++
          toString currentYear⟩
      else if (year : Int) == currentYear then
        ⟨.fresh, "Current year (" ++ toString year ++ ") content — still relevant"⟩
      else tsAgeLadder t ageMonths
    | none => tsAgeLadder t ageMonths
  | .news =>
    if ageMonths < 6 then ⟨.fresh, "Recent news"⟩
    else if ageMonths < 12 then
      ⟨.fresh, "News — doesn\x27t need updating (historical record)"⟩
    else ⟨.fresh, "News/press release — historical record, no update needed"⟩

/-! ### categorizeArticle -/

/-- Keep-first deduplication worker. -/
def dedupFirstGo [BEq α] (seen : List α) : List α → List α
  | [] => []
  | a :: as =>
    if seen.contains a then dedupFirstGo seen as
    else a :: dedupFirstGo (a :: seen) as

/-- Keep-first deduplication (models building a JS Set and spreading it). -/
def dedupFirst [BEq α] (l : List α) : List α := dedupFirstGo [] l

/-- Tail of the co-founder podcast pattern: an occurrence of of with a right
boundary, then a left-boundary occurrence of at, labs, dao or protocol. -/
def cofounderTail (pc : Option Char) (rest : List Char) : Bool :=
  match scanSuffix false .nonWordOrEnd (litP "of") pc rest with
  | none => false
  | some (pc2, rest2) =>
    scanAux true .free (litP "at") pc2 rest2 ||
    scanAux true .free (litP "labs") pc2 rest2 ||
    scanAux true .free (litP "dao") pc2 rest2 ||
    scanAux true .free (litP "protocol") pc2 rest2

/-- The co-founder alternative of the podcast rule (co, optional hyphen,
founder, then the tail). -/
def cofounderRule (t : List Char) : Bool :=
  (match scanSuffix false .free (litP "cofounder") none t with
   | none => false
   | some (pc, rest) => cofounderTail pc rest) ||
  (match scanSuffix false .free (litP "co-founder") none t with
   | none => false
   | some (pc, rest) => cofounderTail pc rest)

/-- Podcast rule of `categorizeArticle`. -/
def podcastRule (t : List Char) : Bool :=
  hasSub "masters of web3" t ||
  scanAux false .free [fun c => c == 'e', fun c => c == 'p', isDigitCh] none t ||
  hasSub "podcast" t || cofounderRule t

/-- Stablecoins rule of `categorizeArticle`. -/
def stablecoinRule (t : List Char) : Bool :=
  hasSubL "stablecoin" t || hasSub "usdt" t || hasSub "usdc" t || hasSub "pyusd" t ||
  hasSub "rlusd" t || hasSub "usdg" t || hasSub "eurc" t || hasSub "usde" t ||
  hasSub "tether" t || hasSub "paypal usd" t || hasSub "flatcoin" t ||
  hasSub "dark stablecoin" t || hasSub "cbdc" t || hasSub "genius act" t ||
  hasSubR "mica" t

/-- New Listings rule of `categorizeArticle`. -/
def newListingsRule (t : List Char) : Bool :=
  (hasSubL "now available" t || hasSubL "now listed" t || hasSub "lists $" t ||
   hasSub "lists hype" t || hasSub "lists pepe" t || hasSub "lists bonk" t ||
   hasSubR "is now available" t) ||
  (hasSubB "available for purchase" t || hasSubB "available on transak" t ||
   hasSubB "available via transak" t) ||
  hasSubB "transak lists" t ||
  (hasSubB "now available for purchase" t || hasSubB "now available for purchases" t)

/-- Brand alternation of the partnerships rule. -/
def brandHit (t : List Char) : Bool :=
  hasSubB "metamask" t || hasSubB "phantom" t || hasSubB "ledger" t ||
  hasSubB "coinbase" t || hasSubB "pancakeswap" t || hasSubB "uniswap" t ||
  hasSubB "sushi" t || hasSubB "aave" t || hasSubB "bitpay" t ||
  hasSubB "immutable" t || hasSubB "sequence" t || hasSubB "ronin" t ||
  hasSubB "zerion" t || hasSubB "bloom" t || hasSubB "zengo" t ||
  hasSubB "okto" t || hasSubB "tonkeeper" t || hasSubB "vechain" t ||
  hasSubB "lukso" t || hasSubB "animoca" t || hasSubB "logx" t ||
  hasSubB "opera" t || hasSubB "fireblocks" t || hasSubB "cobo" t ||
  hasSubB "galxe" t || hasSubB "privado" t

/-- Partnerships rule of `categorizeArticle` (partner phrasing, or a brand
mention combined with a transak mention). -/
def partnershipsRule (t : List Char) : Bool :=
  (hasSubL "partner" t || hasSub "integrat" t || hasSub "joins forces" t ||
   hasSubR "teams up" t) ||
  (brandHit t && hasSubB "transak" t)

/-- Product rule of `categorizeArticle`. -/
def productRule (t : List Char) : Bool :=
  (hasSubB "transak one" t || hasSubB "transak stream" t ||
   hasSubB "transak nft checkout" t || hasSubB "transak multi-nft" t) ||
  (hasSubL "product update" t || hasSub "new feature" t || hasSub "wire transfer" t ||
   hasSub "apple pay" t || hasSub "google pay" t ||
   seqSub false "google" .free "sso" t || seqSub false "apple" .nonWordOrEnd "sso" t) ||
  (hasSubL "reusable kyc" t || hasSubR "transak.com got an upgrade" t) ||
  (hasSubL "introducing transak" t || hasSubR "how to use transak" t)

/-- Series pattern: series after a left boundary, one arbitrary character
and a letter a to z. -/
def seriesRule (t : List Char) : Bool :=
  scanAux true .free
    (litP "series" ++ [anyCh, fun c => decide (97 ≤ c.toNat ∧ c.toNat ≤ 122)]) none t

/-- All-whitespace test for the end-anchored 2025 pattern. -/
def allSpaces : List Char → Bool
  | [] => true
  | c :: cs => isSpaceChar c && allSpaces cs

/-- Occurrence of 2025 followed only by whitespace up to the end of the
string. -/
def ends2025 : List Char → Bool
  | [] => false
  | c :: cs =>
    (matchPreds (litP "2025") (c :: cs) && allSpaces ((c :: cs).drop 4)) || ends2025 cs

/-- Announcements rule of `categorizeArticle`. -/
def announcementsRule (t : List Char) : Bool :=
  (seriesRule t || hasSub "fundraise" t || hasSub "strategic round" t ||
   hasSubR "raises" t) ||
  (hasSubL "license" t || hasSub "registration" t || hasSub "fintrac" t ||
   hasSub "fca " t || hasSub "fiu-" t || hasSub "soc 2" t || hasSub "iso/iec" t ||
   hasSub "certified" t || hasSub "regulatory" t || hasSubR "compliance footprint" t) ||
  (hasSubL "expands" t || hasSub "expansion" t || seqSub false "launches" .nonWordOrEnd "in" t) ||
  (hasSubL "incident" t || hasSub "maintenance" t || hasSub "security incident" t ||
   hasSubR "trust notice" t) ||
  (hasSubL "growth" t || hasSub "milestone" t || hasSub "2022 in review" t ||
   ends2025 t || hasSubR "in review" t) ||
  (hasSubB "transak secures" t || hasSubB "transak becomes" t || hasSubB "transak expands" t ||
   hasSubB "transak receives" t || hasSubB "transak celebrates" t ||
   hasSubB "transak is proud" t || hasSubB "transak is pleased" t) ||
  (hasSubL "commitment" t || hasSub "self-custody" t ||
   seqSub false "navigating" .free "regulation" t || hasSubR "thoughts on" t) ||
  (seqSub true "james young" .free "joins" t || hasSubR "advisory board" t) ||
  hasSubB "meet team transak" t

/-- Remaining input after a leading digit run. -/
def afterDigits : List Char → List Char
  | [] => []
  | c :: cs => if isDigitCh c then afterDigits cs else c :: cs

/-- Anchored listicle pattern: one or more digits at the start of the input,
then a literal word with a trailing boundary. -/
def startsNumWord (w : String) (t : List Char) : Bool :=
  match t with
  | [] => false
  | c :: cs =>
    isDigitCh c && matchPreds (litP w) (afterDigits cs) &&
      okRight .nonWordOrEnd ((afterDigits cs).drop (litP w).length).head?

/-- Learn rule of `categorizeArticle`. -/
def learnRule (t : List Char) : Bool :=
  (startsWithR "what is" t || startsWithR "what are" t || startsWithR "what does" t ||
   startsWithR "what makes" t) ||
  (startsWithR "how to" t || startsWithR "how do" t || startsWithR "how does" t ||
   startsWithR "how can" t) ||
  (hasSubL "explain" t || hasSub "guide" t || hasSub "handbook" t ||
   hasSub "tutorial" t || hasSub "beginner" t || hasSubR "101" t) ||
  (vsPhrase t || hasSubB "comparing" t || hasSubB "difference" t) ||
  (matchPreds (litP "top " ++ [isDigitCh]) t ||
   startsNumWord " best" t || startsNumWord " ways" t || startsNumWord " challenges" t ||
   startsNumWord " reasons" t || startsNumWord " incredible" t || startsNumWord " premier" t) ||
  (hasSubL "decoding" t || hasSub "understanding" t || hasSub "breaking down" t ||
   hasSub "deep dive" t || hasSubR "step-by-step" t) ||
  (hasSubL "protect yourself" t || hasSub "crypto journey" t ||
   hasSub "bitcoin halving explained" t || hasSubR "ecosystem spotlight" t) ||
  (hasSubL "events in" t || hasSubL "events to look" t ||
   seqSub false "devcon" .free "guide" t || hasSubR "token2049" t) ||
  (hasSubB "why crypto" t || hasSubB "why fintechs" t || hasSubB "why vcs" t ||
   hasSubB "why wallets" t || hasSubB "why smart" t || hasSubB "why global" t ||
   hasSubB "why stablecoin" t || hasSubB "why neobanks" t) ||
  (hasSubL "playbook" t || hasSubR "report" t)

/-- Fallback vocabulary test of `categorizeArticle`. -/
def fallbackLearnRule (t : List Char) : Bool :=
  hasSubL "crypto" t || hasSub "blockchain" t || hasSub "web3" t || hasSub "defi" t ||
  hasSub "token" t || hasSub "wallet" t || hasSub "nft" t || hasSubR "payment" t

/-- Direct embedding of `categorizeArticle` (articles.ts lines 212 to 286):
ordered independent rules pushing labels, an ordered fallback when none
fired, and keep-first deduplication. -/
def categorizeArticle (title : String) : List String :=
  let t := lc title
  let cats : List String :=
    (if podcastRule t then ["Podcast"] else []) ++
    (if hasSub "case study" t then ["Case Studies"] else []) ++
    (if stablecoinRule t then ["Stablecoins"] else []) ++
    (if newListingsRule t then ["New Listings"] else []) ++
    (if partnershipsRule t then ["Partnerships"] else []) ++
    (if productRule t then ["Product"] else []) ++
    (if announcementsRule t then ["Announcements"] else []) ++
    (if learnRule t then ["Learn"] else [])
  let cats : List String :=
    if cats.isEmpty then
      if hasSubB "transak" t && (hasSubB "with" t || hasSubB "on" t || hasSubB "for" t) then
        ["Partnerships"]
      else if fallbackLearnRule t then ["Learn"]
      else ["Announcements"]
    else cats
  dedupFirst cats

/-! ### inferTags, tag normalization, splitAndClean -/

/-- Tag rule 1: Transak One. -/
def tagRule01 (t : List Char) : List String :=
  if hasSubB "transak one" t then ["Transak One"] else []

/-- Tag rule 2: Off Ramp. -/
def tagRule02 (t : List Char) : List String :=
  if hasSubB "transak stream" t || optGapSub false "off" "ramp" t ||
      hasSub "sell crypto" t || hasSub "cash out" t ||
      gapSub2 "crypto" "to" "fiat" t then ["Off Ramp"] else []

/-- Tag rule 3: On-Ramp. -/
def tagRule03 (t : List Char) : List String :=
  if optGapSub true "on" "ramp" t || hasSub "buy crypto" t ||
      gapSub2 "fiat" "to" "crypto" t || hasSub "purchase" t then ["On-Ramp"] else []

/-- Tag rule 4: NFT Checkout. -/
def tagRule04 (t : List Char) : List String :=
  if hasSubL "nft checkout" t || hasSub "nft marketplace" t then ["NFT Checkout"] else []

/-- Tag rule 5: NFT. -/
def tagRule05 (t : List Char) : List String :=
  if hasSubB "nft" t then ["NFT"] else []

/-- Tag rule 6: Gaming. -/
def tagRule06 (t : List Char) : List String :=
  if hasSubL "gaming" t || hasSub "game" t || gapSub2 "play" "to" "earn" t ||
      hasSub "p2e" t || hasSubR "gamefi" t then ["Gaming"] else []

/-- Tag rule 7: DeFi. -/
def tagRule07 (t : List Char) : List String :=
  if hasSubL "defi" t || hasSubR "decentralized finance" t then ["DeFi"] else []

/-- Tag rule 8: Tokens and Standards. -/
def tagRule08 (t : List Char) : List String :=
  if hasSubL "stablecoin" t || hasSub "usdt" t || hasSub "usdc" t || hasSub "pyusd" t ||
      hasSub "rlusd" t || hasSub "usdg" t || hasSubR "eurc" t then
    ["Tokens & Standards"] else []

/-- Tag rule 9: Wallets. -/
def tagRule09 (t : List Char) : List String :=
  if hasSubB "wallet" t then ["Wallets"] else []

/-- Tag rule 10: Compliance. -/
def tagRule10 (t : List Char) : List String :=
  if hasSubL "kyc" t || hasSub "compliance" t || hasSub "regulation" t ||
      hasSub "license" t || hasSub "fca" t || hasSub "genius act" t || hasSub "mica" t ||
      hasSub "clarity act" t || hasSubR "travel rule" t then ["Compliance"] else []

/-- Tag rule 11: Security. -/
def tagRule11 (t : List Char) : List String :=
  if hasSubL "security" t || hasSub "scam" t || hasSub "attack" t || hasSub "poison" t ||
      hasSubR "incident" t then ["Security"] else []

/-- Tag rule 12: Layer 2. -/
def tagRule12 (t : List Char) : List String :=
  if hasSubL "layer 2" t || hasSub "l2" t || hasSub "zkevm" t || hasSub "rollup" t ||
      hasSubR "superchain" t then ["Layer 2"] else []

/-- Tag rule 13: Ethereum. -/
def tagRule13 (t : List Char) : List String :=
  if hasSubL "ethereum" t || hasSubR "eth" t then ["Ethereum"] else []

/-- Tag rule 14: Bitcoin. -/
def tagRule14 (t : List Char) : List String :=
  if hasSubL "bitcoin" t || hasSubR "btc" t then ["Bitcoin"] else []

/-- Tag rule 15: Solana. -/
def tagRule15 (t : List Char) : List String :=
  if hasSubL "solana" t || hasSubR "sol" t then ["Solana"] else []

/-- Tag rule 16: Memecoins. -/
def tagRule16 (t : List Char) : List String :=
  if optGapSub true "meme" "coin" t || hasSub "pepe" t || hasSub "bonk" t ||
      hasSub "pnut" t || hasSub "trump" t || hasSub "melania" t ||
      hasSubR "moodeng" t then ["Memecoins"] else []

/-- Tag rule 17: Airdrops. -/
def tagRule17 (t : List Char) : List String :=
  if hasSubB "airdrop" t then ["Airdrops"] else []

/-- Tag rule 18: RWA. -/
def tagRule18 (t : List Char) : List String :=
  if hasSubL "rwa" t || hasSub "tokeniz" t || gapSub2 "real" "world" "asset" t ||
      hasSubR "treasury bill" t then ["RWA"] else []

/-- Tag rule 19: Payments. -/
def tagRule19 (t : List Char) : List String :=
  if hasSubL "payment" t || hasSub "pay " t || hasSub "payfi" t ||
      gapSub1 false "cross" "border" t || hasSubR "remittance" t then ["Payments"] else []

/-- Tag rule 20: Staking. -/
def tagRule20 (t : List Char) : List String :=
  if hasSubL "staking" t || hasSub "restaking" t || hasSubR "yield" t then
    ["Staking"] else []

/-- Tag rule 21: Adoption. -/
def tagRule21 (t : List Char) : List String :=
  if hasSubL "neobank" t || hasSub "fintech" t || hasSubR "embedded finance" t then
    ["Adoption"] else []

/-- Tag rule 22: AI. -/
def tagRule22 (t : List Char) : List String :=
  if hasSubL "ai agent" t || hasSubR "ai crypto" t then ["AI"] else []

/-- Tag rule 23: Expansions. -/
def tagRule23 (t : List Char) : List String :=
  if hasSubL "australia" t || hasSub "india" t || hasSub "hong kong" t ||
      hasSub "philippines" t || hasSub "thailand" t || hasSub "hawaii" t ||
      hasSub "africa" t || hasSub "uk " t || hasSub "u.s." t || hasSub "us " t ||
      hasSubR "singapore" t then ["Expansions"] else []

/-- Tag rule 24: Partners. -/
def tagRule24 (t : List Char) : List String :=
  if hasSubL "metamask" t || hasSub "phantom" t || hasSub "ledger" t ||
      hasSub "zengo" t || hasSub "coinbase" t || hasSub "trustwallet" t ||
      hasSub "veworld" t || hasSubR "tokenpocket" t then ["Partners"] else []

/-- Tag rule 25: How-To Guides. -/
def tagRule25 (t : List Char) : List String :=
  if hasSubB "how to" t || gapSub2 "step" "by" "step" t then ["How-To Guides"] else []

/-- Tag rule 26: Blockchain 101. -/
def tagRule26 (t : List Char) : List String :=
  if hasSubL "explain" t || hasSub "what is" t || hasSub "what are" t ||
      hasSub "101" t || hasSub "beginner" t then ["Blockchain 101"] else []

/-- Direct embedding of `inferTags` (articles.ts lines 288 to 323): an
ordered list of independent keyword rules pushing topical labels, then
keep-first deduplication.  The category argument is accepted and unused,
as in the source. -/
def inferTags (title : String) (_categories : List String) : List String :=
  let t := lc title
  dedupFirst
    (tagRule01 t ++ tagRule02 t ++ tagRule03 t ++ tagRule04 t ++ tagRule05 t ++
     tagRule06 t ++ tagRule07 t ++ tagRule08 t ++ tagRule09 t ++ tagRule10 t ++
     tagRule11 t ++ tagRule12 t ++ tagRule13 t ++ tagRule14 t ++ tagRule15 t ++
     tagRule16 t ++ tagRule17 t ++ tagRule18 t ++ tagRule19 t ++ tagRule20 t ++
     tagRule21 t ++ tagRule22 t ++ tagRule23 t ++ tagRule24 t ++ tagRule25 t ++
     tagRule26 t)

/-- Direct embedding of the TAG_NORMALIZE lookup table (articles.ts lines
165 to 202), keyed by the lowercased trimmed tag.  The source object
contains a repeated key (tokens and standards) and a key with an uppercase
letter (on-Ramp) that lowercased lookups can never hit; both are semantically
inert and reproduced here. -/
def tagNormalizeMap : String → Option String
  | "layer2" => some "Layer 2"
  | "layer 2" => some "Layer 2"
  | "tokens and standards" => some "Tokens & Standards"
  | "tokens & standards" => some "Tokens & Standards"
  | "tokens and standard" => some "Tokens & Standards"
  | "explainers" => some "Explainer"
  | "explainer" => some "Explainer"
  | "partnerships and integrations" => some "Partnerships & Integrations"
  | "partnerships & integrations" => some "Partnerships & Integrations"
  | "wallets" => some "Wallets"
  | "wallet" => some "Wallets"
  | "how-to guides" => some "How-To Guides"
  | "on-ramp" => some "On-Ramp"
  | "on-Ramp" => some "On-Ramp"
  | "off-ramp" => some "Off-Ramp"
  | "product updates web3" => some "Product Updates"
  | "product updates" => some "Product Updates"
  | "simplifying user onboarding" => some "User Onboarding"
  | "educational" => some "Educational"
  | "gaming" => some "Gaming"
  | "games" => some "Gaming"
  | "nfts" => some "NFTs"
  | "nft checkout" => some "NFT Checkout"
  | "blockchain 101" => some "Blockchain 101"
  | "defi" => some "DeFi"
  | "web3" => some "Web3"
  | "security" => some "Security"
  | "kyc" => some "KYC"
  | "launch" => some "Launch"
  | "expansion" => some "Expansion"
  | "events" => some "Events"
  | "reviews" => some "Reviews"
  | "announcements" => some "Announcements"
  | "ecosystem" => some "Ecosystem"
  | "transak one" => some "Transak One"
  | _ => none

/-- Direct embedding of `normalizeTags`: canonicalize each tag through the
table (falling back to the original string) and deduplicate keeping first
occurrences. -/
def normalizeTags (tags : List String) : List String :=
  dedupFirst (tags.map (fun t => (tagNormalizeMap (jsTrim (lcString t))).getD t))

/-- Direct embedding of `splitAndClean`: empty or blank input gives the
empty list, otherwise split on commas, trim, and drop empties. -/
def splitAndClean (val : String) : List String :=
  if (trimChars val.toList).isEmpty then []
  else (((splitCommaGo [] val.toList).map (fun w => String.mk (trimChars w))).filter
    (fun s => !s.toList.isEmpty))

/-! ### Date model

Instants are epoch milliseconds (Int).  Calendar arithmetic uses the
standard proleptic-Gregorian civil-from-days / days-from-civil algorithms.
The JS local-midnight constructions are modelled with an explicit timezone
offset in minutes east of UTC (a fixed offset; daylight-saving shifts are
outside the model and irrelevant to the claims). -/

/-- Gregorian leap-year test. -/
def isLeap (y : Int) : Bool := (y % 4 == 0 && y % 100 != 0) || y % 400 == 0

/-- Days in a month (month 1 to 12). -/
def daysInMonth (y m : Int) : Int :=
  if m == 2 then (if isLeap y then 29 else 28)
  else if m == 4 || m == 6 || m == 9 || m == 11 then 30
  else 31

/-- Days since the epoch of a civil date; `d` may lie outside the month and
acts as a day offset, matching the JS rollover behaviour. -/
def daysFromCivil (y m d : Int) : Int :=
  let y1 := if m ≤ 2 then y - 1 else y
  let era := Int.fdiv y1 400
  let yoe := y1 - era * 400
  let mp := if m > 2 then m - 3 else m + 9
  let doy := Int.fdiv (153 * mp + 2) 5 + d - 1
  let doe := yoe * 365 + Int.fdiv yoe 4 - Int.fdiv yoe 100 + doy
  era * 146097 + doe - 719468

/-- Civil date (year, month, day) of a day count since the epoch. -/
def civilFromDays (z0 : Int) : Int × Int × Int :=
  let z := z0 + 719468
  let era := Int.fdiv z 146097
  let doe := z - era * 146097
  let yoe := Int.fdiv (doe - Int.fdiv doe 1460 + Int.fdiv doe 36524 - Int.fdiv doe 146096) 365
  let doy := doe - (365 * yoe + Int.fdiv yoe 4 - Int.fdiv yoe 100)
  let mp := Int.fdiv (5 * doy + 2) 153
  let d := doy - Int.fdiv (153 * mp + 2) 5 + 1
  let m := if mp < 10 then mp + 3 else mp - 9
  (yoe + era * 400 + (if m ≤ 2 then 1 else 0), m, d)

/-- Instant of local midnight of a given epoch-day count, for a timezone
offset in minutes east of UTC. -/
def localMidnightMs (days : Int) (tzMin : Int) : Int := days * 86400000 - tzMin * 60000

/-- Epoch-day count produced by the JS Date(year, monthIndex, day)
constructor: years 0 to 99 shift to 1900 to 1999, the zero-based month
index rolls over into the year, and the day acts as an offset. -/
def jsDateCtorDays (y m0 d : Int) : Int :=
  let y1 := if 0 ≤ y ∧ y ≤ 99 then y + 1900 else y
  daysFromCivil (y1 + Int.fdiv m0 12) (Int.emod m0 12 + 1) d

/-- Month-name lookup modelling the engine parse of the constructed
"Month day, year" string: a token of at least three characters that is a
prefix of an English month name resolves to that month. -/
def monthNames : List (String × Nat) :=
  [("january", 1), ("february", 2), ("march", 3), ("april", 4), ("may", 5),
   ("june", 6), ("july", 7), ("august", 8), ("september", 9), ("october", 10),
   ("november", 11), ("december", 12)]

/-- Resolve a lowercased month token. -/
def monthLookup (w : List Char) : Option Nat :=
  if w.length < 3 then none
  else (monthNames.find? (fun p => w.isPrefixOf p.1.toList)).map (fun p => p.2)

/-- Instant for the named-month form: the engine validates the day against
the month and yields local midnight, or an invalid date otherwise. -/
def namedDateMs (y m d : Int) (tzMin : Int) : Option Int :=
  if 1 ≤ d ∧ d ≤ daysInMonth y m then
    some (localMidnightMs (daysFromCivil y m d) tzMin)
  else none

/-- Numeric value of a digit run. -/
def readNat (cs : List Char) : Nat := cs.foldl (fun acc c => acc * 10 + (c.toNat - 48)) 0

/-- Parser for the anchored named-month date pattern (one or two digits,
whitespace, a word, whitespace, exactly four digits, end of string);
equivalent to the source regular expression because the digit, whitespace
and word classes are pairwise disjoint except as bounded here. -/
def parseForm1 (cs : List Char) : Option (Nat × List Char × Nat) :=
  let (ds, r1) := cs.span Char.isDigit
  if ds.length == 0 || 2 < ds.length then none
  else
    let (sp1, r2) := r1.span isSpaceChar
    if sp1.length == 0 then none
    else
      let (w, r3) := r2.span isWordChar
      if w.length == 0 then none
      else
        let (sp2, r4) := r3.span isSpaceChar
        if sp2.length == 0 then none
        else
          let (ys, r5) := r4.span Char.isDigit
          if ys.length == 4 && r5.isEmpty then some (readNat ds, w, readNat ys)
          else none

/-- Parser for the anchored slashed date pattern (one or two digits, slash,
one or two digits, slash, exactly four digits, end of string). -/
def parseForm2 (cs : List Char) : Option (Nat × Nat × Nat) :=
  let (ds, r1) := cs.span Char.isDigit
  if ds.length == 0 || 2 < ds.length then none
  else
    match r1 with
    | '/' :: r2 =>
      let (ms, r3) := r2.span Char.isDigit
      if ms.length == 0 || 2 < ms.length then none
      else
        match r3 with
        | '/' :: r4 =>
          let (ys, r5) := r4.span Char.isDigit
          if ys.length == 4 && r5.isEmpty then some (readNat ds, readNat ms, readNat ys)
          else none
        | _ => none
    | _ => none

/-- Second half of `parseFlexibleDate`: the slashed day/month/year form via
the Date constructor (always a valid date), then the engine generic parse
modelled by the explicit fallback function. -/
def parseRest (tzMin : Int) (fb : String → Option Int) (s : String) : Option Int :=
  match parseForm2 s.toList with
  | some (d, m, y) => some (localMidnightMs (jsDateCtorDays (y : Int) ((m : Int) - 1) (d : Int)) tzMin)
  | none => fb s

/-- Direct embedding of `parseFlexibleDate` (articles.ts lines 19 to 36):
blank input is rejected; the named-month form is tried first and falls
through on an unknown month token or invalid day; then the slashed
day/month/year form; then the generic fallback parse. -/
def parseFlexibleDate (tzMin : Int) (fb : String → Option Int) (dateStr : String) : Option Int :=
  if ((jsTrim dateStr).toList).isEmpty then none
  else
    let s := jsTrim dateStr
    match parseForm1 s.toList with
    | some (d, w, y) =>
      match monthLookup (w.map Char.toLower) with
      | some m =>
        match namedDateMs (y : Int) (m : Int) (d : Int) tzMin with
        | some ms => some ms
        | none => parseRest tzMin fb s
      | none => parseRest tzMin fb s
    | none => parseRest tzMin fb s

/-- Zero-padded two-digit rendering. -/
def pad2 (n : Nat) : String := if n < 10 then "0" ++ toString n else toString n

/-- Zero-padded four-digit rendering. -/
def pad4 (n : Nat) : String :=
  if n < 10 then "000" ++ toString n
  else if n < 100 then "00" ++ toString n
  else if n < 1000 then "0" ++ toString n
  else toString n

/-- UTC calendar-date component of an instant in ISO form (models
toISOString followed by taking the part before the T). -/
def isoDateStr (ms : Int) : String :=
  match civilFromDays (Int.fdiv ms 86400000) with
  | (y, m, d) => pad4 y.toNat ++ "-" ++ pad2 m.toNat ++ "-" ++ pad2 d.toNat

/-! ### The pipeline -/

/-- An input row of the parsed CSV: the fields the pipeline reads, each
possibly absent.  The Categories column belongs to the input contract but
is never read by the current `loadArticles`. -/
structure Row where
  postTitle : Option String
  postUrl : Option String
  publishDate : Option String
  categories : Option String
  tags : Option String
deriving DecidableEq, Repr

/-- The produced article record. -/
structure Article where
  id : Nat
  title : String
  url : String
  publishDate : String
  publishTimestamp : Int
  categories : List String
  tags : List String
  ageMonths : Nat
  freshness : Freshness
  reasoning : String
  contentType : ContentType
deriving DecidableEq, Repr

/-- URL filter of the pipeline: the trimmed URL must contain one of the two
blog path markers (a case-sensitive substring test, as in the source). -/
def urlOk (url : String) : Bool :=
  hasSub "/blog/" url.toList || hasSub "/blog-old/" url.toList

/-- Milliseconds in 30.44 days: 1000 * 60 * 60 * 24 * 30.44 exactly. -/
def monthMs : Int := 2630016000

/-- Direct embedding of the per-row body of `loadArticles` (articles.ts
lines 333 to 363) at file index `idx`: trim and validate title and URL,
parse the date, derive the age in 30.44-day months floored and clamped at
zero, infer categories from the title, prefer explicit CSV tags when
non-empty, classify, and assemble the record with `id := idx`. -/
def processRow (nowMs tzMin : Int) (fb : String → Option Int) (currentYear : Int)
    (idx : Nat) (row : Row) : Option Article :=
  let title := jsTrim (row.postTitle.getD "")
  let url := jsTrim (row.postUrl.getD "")
  if title.toList.isEmpty || url.toList.isEmpty then none
  else if !urlOk url then none
  else
    match parseFlexibleDate tzMin fb (jsTrim (row.publishDate.getD "")) with
    | none => none
    | some ts =>
      let ageMonths : Nat := (Int.fdiv (nowMs - ts) monthMs).toNat
      let rawTags := splitAndClean (row.tags.getD "")
      let categories := categorizeArticle title
      let tags := normalizeTags (if 0 < rawTags.length then rawTags else inferTags title categories)
      let contentType := detectContentType title categories
      let v := assessFreshness title ageMonths contentType currentYear
      some { id := idx, title := title, url := url, publishDate := isoDateStr ts,
             publishTimestamp := ts, categories := categories, tags := tags,
             ageMonths := ageMonths, freshness := v.freshness, reasoning := v.reasoning,
             contentType := contentType }

/-- The forEach accumulation of `loadArticles`: every parsed row advances
the file index, surviving rows append their record. -/
def buildFrom (nowMs tzMin : Int) (fb : String → Option Int) (currentYear : Int) :
    Nat → List Row → List Article
  | _, [] => []
  | k, r :: rs =>
    match processRow nowMs tzMin fb currentYear k r with
    | some a => a :: buildFrom nowMs tzMin fb currentYear (k + 1) rs
    | none => buildFrom nowMs tzMin fb currentYear (k + 1) rs

/-- Ordering of the final sort: descending by publish timestamp (the JS
comparator subtracts timestamps, placing larger timestamps first). -/
def tsGE (a b : Article) : Prop := b.publishTimestamp ≤ a.publishTimestamp

instance : DecidableRel tsGE := fun _ _ => Int.decLe _ _

instance : IsTotal Article tsGE := ⟨fun _ _ => Int.le_total _ _⟩

instance : IsTrans Article tsGE := ⟨fun _ _ _ h1 h2 => le_trans h2 h1⟩

/-- Direct embedding of `loadArticles` over already-parsed CSV rows: process
each row in file order, then sort descending by publish timestamp.  The JS
sort is stable, so any stable sorted permutation models it; insertion sort
is used because it is stable and kernel-computable. -/
def loadArticles (nowMs tzMin : Int) (fb : String → Option Int) (currentYear : Int)
    (rows : List Row) : List Article :=
  List.insertionSort tsGE (buildFrom nowMs tzMin fb currentYear 0 rows)

/-! ### Concrete fixtures used in witnesses and counterexamples -/

/-- Generic-parse fallback that never succeeds. -/
def noFallback : String → Option Int := fun _ => none

/-- Test row with a missing Post URL column. -/
def rowMissingUrl : Row :=
  { postTitle := some "A", postUrl := none, publishDate := some "17 Oct 2023",
    categories := none, tags := none }

/-- Valid test row with a blog URL and a named-month date. -/
def rowHowToStake : Row :=
  { postTitle := some "How to Stake", postUrl := some "https://transak.com/blog/how-to-stake",
    publishDate := some "17 Oct 2023", categories := none, tags := some "" }

/-- Valid test row carrying an explicit CSV Categories value. -/
def rowExplicitCats : Row :=
  { postTitle := some "How to Stake", postUrl := some "https://transak.com/blog/x",
    publishDate := some "17 Oct 2023", categories := some "Podcast", tags := some "" }

/-- Record produced from `rowHowToStake` at file index 1 when loaded at
instant 1700000000000 (UTC offset zero). -/
def articleStakeIdx1 : Article :=
  { id := 1, title := "How to Stake", url := "https://transak.com/blog/how-to-stake",
    publishDate := "2023-10-17", publishTimestamp := 1697500800000,
    categories := ["Learn"], tags := ["How-To Guides"], ageMonths := 0,
    freshness := .fresh, reasoning := "Recent guide — likely still accurate",
    contentType := .semiEvergreen }

/-- Record produced from `rowExplicitCats` at file index 0 when loaded at
instant 1700000000000 (UTC offset zero). -/
def articleCatsIdx0 : Article :=
  { id := 0, title := "How to Stake", url := "https://transak.com/blog/x",
    publishDate := "2023-10-17", publishTimestamp := 1697500800000,
    categories := ["Learn"], tags := ["How-To Guides"], ageMonths := 0,
    freshness := .fresh, reasoning := "Recent guide — likely still accurate",
    contentType := .semiEvergreen }

/-- Record produced from `rowHowToStake` at file index 0 when loaded at
instant 1760000000000 (UTC offset zero): 23 age months. -/
def articleStakeOld : Article :=
  { id := 0, title := "How to Stake", url := "https://transak.com/blog/how-to-stake",
    publishDate := "2023-10-17", publishTimestamp := 1697500800000,
    categories := ["Learn"], tags := ["How-To Guides"], ageMonths := 23,
    freshness := .stale, reasoning := "Product UIs and processes likely changed since publication",
    contentType := .semiEvergreen }

/-! ## Theorems -/

/-- Field-level description of a surviving row: every component of the
produced record is determined by the source row as the code computes it. -/
theorem processRow_fields {nowMs tzMin : Int} {fb : String → Option Int} {cy : Int}
    {k : Nat} {r : Row} {a : Article}
    (h : processRow nowMs tzMin fb cy k r = some a) :
    a.id = k ∧
    a.title = jsTrim (r.postTitle.getD "") ∧
    a.categories = categorizeArticle a.title ∧
    a.tags = normalizeTags (if 0 < (splitAndClean (r.tags.getD "")).length
      then splitAndClean (r.tags.getD "") else inferTags a.title (categorizeArticle a.title)) ∧
    a.contentType = detectContentType a.title a.categories ∧
    a.freshness = (assessFreshness a.title a.ageMonths a.contentType cy).freshness ∧
    a.reasoning = (assessFreshness a.title a.ageMonths a.contentType cy).reasoning ∧
    (a.ageMonths : Int) = max 0 (Int.fdiv (nowMs - a.publishTimestamp) monthMs) ∧
    a.publishDate = isoDateStr a.publishTimestamp ∧
    parseFlexibleDate tzMin fb (jsTrim (r.publishDate.getD "")) = some a.publishTimestamp := by
  simp only [processRow] at h
  split at h
  · exact absurd h (by simp)
  · split at h
    · exact absurd h (by simp)
    · split at h
      · exact absurd h (by simp)
      · next ts hts =>
          rw [Option.some_inj] at h
          subst h
          refine ⟨?_, ?_, ?_, ?_, ?_, ?_, ?_, ?_, ?_, ?_⟩
          case _ => with_reducible rfl
          case _ => with_reducible rfl
          case _ => with_reducible rfl
          case _ => with_reducible rfl
          case _ => with_reducible rfl
          case _ => with_reducible rfl
          case _ => with_reducible rfl
          case _ =>
            show ((Int.fdiv (nowMs - ts) monthMs).toNat : Int) = _
            rw [Int.toNat_eq_max, max_comm]
          case _ => with_reducible rfl
          case _ => exact hts

/-- Membership in the accumulated list locates the source row: the id is at
least the starting index and points to the row it came from. -/
theorem mem_buildFrom {nowMs tzMin : Int} {fb : String → Option Int} {cy : Int} {a : Article} :
    ∀ {k : Nat} {rows : List Row}, a ∈ buildFrom nowMs tzMin fb cy k rows →
      k ≤ a.id ∧ a.id - k < rows.length ∧
      ∃ row, rows[a.id - k]? = some row ∧ processRow nowMs tzMin fb cy a.id row = some a := by
  intro k rows
  induction rows generalizing k with
  | nil => intro h; simp [buildFrom] at h
  | cons r rs ih =>
    intro h
    simp only [buildFrom] at h
    cases hp : processRow nowMs tzMin fb cy k r with
    | some a0 =>
      rw [hp] at h
      rcases List.mem_cons.mp h with rfl | hmem
      · have hid : a.id = k := (processRow_fields hp).1
        refine ⟨le_of_eq hid.symm, by simp [hid], r, by simp [hid], ?_⟩
        rw [hid]; exact hp
      · obtain ⟨h1, h2, row, h3, h4⟩ := ih hmem
        refine ⟨by omega, by simp only [List.length_cons]; omega, row, ?_, h4⟩
        have hj : a.id - k = (a.id - (k + 1)) + 1 := by omega
        rw [hj, List.getElem?_cons_succ]
        exact h3
    | none =>
      rw [hp] at h
      obtain ⟨h1, h2, row, h3, h4⟩ := ih h
      refine ⟨by omega, by simp only [List.length_cons]; omega, row, ?_, h4⟩
      have hj : a.id - k = (a.id - (k + 1)) + 1 := by omega
      rw [hj, List.getElem?_cons_succ]
      exact h3

/-- Ids of the accumulated list are strictly increasing in file order. -/
theorem buildFrom_ids_pairwise {nowMs tzMin : Int} {fb : String → Option Int} {cy : Int} :
    ∀ (k : Nat) (rows : List Row),
      (buildFrom nowMs tzMin fb cy k rows).Pairwise (fun x y => x.id < y.id) := by
  intro k rows
  induction rows generalizing k with
  | nil => simp [buildFrom]
  | cons r rs ih =>
    simp only [buildFrom]
    cases hp : processRow nowMs tzMin fb cy k r with
    | some a0 =>
      refine List.Pairwise.cons ?_ (ih (k + 1))
      intro b hb
      have h1 := (processRow_fields hp).1
      have h2 := (mem_buildFrom hb).1
      omega
    | none => exact ih (k + 1)

/-- The sorted load is a permutation of the accumulation in file order. -/
theorem loadArticles_perm (nowMs tzMin : Int) (fb : String → Option Int) (cy : Int)
    (rows : List Row) :
    (loadArticles nowMs tzMin fb cy rows).Perm (buildFrom nowMs tzMin fb cy 0 rows) :=
  List.perm_insertionSort tsGE _

/-- Pointwise-stronger predicate lists match no fewer prefixes. -/
theorem matchPreds_mono {ps qs : List (Char → Bool)}
    (hpq : List.Forall₂ (fun p q => ∀ ch, p ch = true → q ch = true) ps qs) :
    ∀ l, matchPreds ps l = true → matchPreds qs l = true := by
  induction hpq with
  | nil => intro l h; rfl
  | cons h1 h2 ih =>
    intro l hm
    cases l with
    | nil => simp [matchPreds] at hm
    | cons ch cs =>
      simp only [matchPreds, Bool.and_eq_true] at hm ⊢
      exact ⟨h1 ch hm.1, ih cs hm.2⟩

/-- Pointwise-stronger predicate lists scan no fewer inputs (same flags). -/
theorem scanAux_mono {lb : Bool} {rc : RSide} {ps qs : List (Char → Bool)}
    (hpq : List.Forall₂ (fun p q => ∀ ch, p ch = true → q ch = true) ps qs) :
    ∀ (prev : Option Char) (l : List Char),
      scanAux lb rc ps prev l = true → scanAux lb rc qs prev l = true := by
  have hlen : ps.length = qs.length := hpq.length_eq
  intro prev l
  induction l generalizing prev with
  | nil => intro hs; simp [scanAux] at hs
  | cons ch cs ih =>
    intro hs
    simp only [scanAux, Bool.or_eq_true, Bool.and_eq_true] at hs ⊢
    rcases hs with ⟨⟨h1, h2⟩, h3⟩ | hs
    · exact Or.inl ⟨⟨h1, matchPreds_mono hpq _ h2⟩, by rw [← hlen]; exact h3⟩
    · exact Or.inr (ih (some ch) hs)

/-- The 2020 to 2024 year pattern entails the 2020 to 2039 year pattern
predicate by predicate. -/
theorem preds2024_le :
    List.Forall₂ (fun p q => ∀ ch, p ch = true → q ch = true) preds2024 preds2039 := by
  unfold preds2024 preds2039
  refine .cons (fun ch h => h) (.cons (fun ch h => h) (.cons ?_ (.cons ?_ .nil)))
  · intro ch h; simp only at h ⊢; simp [h]
  · intro ch h
    simp only [isDigitCh, decide_eq_true_eq] at h ⊢
    omega

/-- The literal 2025 pattern entails the 2020 to 2039 year pattern
predicate by predicate. -/
theorem preds2025_le :
    List.Forall₂ (fun p q => ∀ ch, p ch = true → q ch = true) (litP "2025") preds2039 := by
  have hl : litP "2025" =
      [fun x => x == '2', fun x => x == '0', fun x => x == '2', fun x => x == '5'] := rfl
  rw [hl]; unfold preds2039
  refine .cons (fun ch h => h) (.cons (fun ch h => h) (.cons ?_ (.cons ?_ .nil)))
  · intro ch h; simp only at h ⊢; simp [h]
  · intro ch h
    have hch : ch = '5' := by simpa using h
    subst hch
    rfl

/-- A year token 2020 to 2024 is in particular a year token 2020 to 2039. -/
theorem hasYear2024_imp {t : List Char} (h : hasYear2024 t = true) : hasYear2039 t = true :=
  scanAux_mono preds2024_le none t h

/-- The year token 2025 is in particular a year token 2020 to 2039. -/
theorem has2025_imp {t : List Char} (h : has2025 t = true) : hasYear2039 t = true :=
  scanAux_mono preds2025_le none t h

/-! ### Claim theorems -/

/-- C5: for every title, every age and every current year, the freshness
evaluator with content type news returns the fresh tier — a news-typed
record never takes aging, stale or needs-update. -/
theorem news_always_fresh (title : String) (ageMonths : Nat) (cy : Int) :
    (assessFreshness title ageMonths .news cy).freshness = .fresh := by
  by_cases h1 : ageMonths < 6
  · simp [assessFreshness, h1]
  · by_cases h2 : ageMonths < 12 <;> simp [assessFreshness, h1, h2]

/-- C6: for every load, the returned collection is sorted descending by
publish timestamp — every adjacent pair a before b satisfies
b.publishTimestamp less than or equal to a.publishTimestamp. -/
theorem loadArticles_sorted_desc (nowMs tzMin : Int) (fb : String → Option Int) (cy : Int)
    (rows : List Row) :
    (loadArticles nowMs tzMin fb cy rows).Pairwise
      (fun a b => b.publishTimestamp ≤ a.publishTimestamp) := by
  have hs := List.sorted_insertionSort tsGE (buildFrom nowMs tzMin fb cy 0 rows)
  exact hs.imp (fun h => h)

/-- C9 counterexample: the evaluator output depends on the wall-clock
calendar year, so it is not a function of the triple alone — the same
(title, ageMonths, contentType) gives different verdicts at clock years
2025 and 2026. -/
theorem assessFreshness_reads_clock :
    assessFreshness "Crypto Trends 2024" 14 .timeSensitive 2025 ≠
      assessFreshness "Crypto Trends 2024" 14 .timeSensitive 2026 := by decide

/-- C9 amended: the evaluator is a pure function of title, age, content type
and the clock year read at call time; for every content type other than
time-sensitive the verdict and rationale are independent of the clock
year. -/
theorem assessFreshness_pure (title : String) (ageMonths : Nat) (ct : ContentType)
    (y1 y2 : Int) (h : ct ≠ .timeSensitive) :
    assessFreshness title ageMonths ct y1 = assessFreshness title ageMonths ct y2 := by
  cases ct with
  | timeSensitive => exact absurd rfl h
  | evergreen => rfl
  | semiEvergreen => rfl
  | news => rfl

/-- C9 amended, witness at a concrete input. -/
theorem assessFreshness_pure_witness :
    assessFreshness "Sample" 3 .news 2025 = assessFreshness "Sample" 3 .news 2026 :=
  assessFreshness_pure "Sample" 3 .news 2025 2026 (by decide)

/-- C10: a title classified semi-evergreen contains no year token 2020 to
2039 (any such title is caught by the news or time-sensitive rules first),
so the year branches of the semi-evergreen freshness policy are unreachable
for pipeline records and the verdict is the pure age ladder. -/
theorem semiEvergreen_no_year (title : String) (cats : List String) (ageMonths : Nat)
    (cy : Int) (h : detectContentType title cats = .semiEvergreen) :
    hasYear2039 (lc title) = false ∧
    assessFreshness title ageMonths .semiEvergreen cy =
      (if ageMonths < 12 then ⟨.fresh, "Recent guide — likely still accurate"⟩
       else if ageMonths < 18 then ⟨.aging, "Guide may have outdated UI screenshots or steps"⟩
       else if ageMonths < 24 then
         ⟨.stale, "Product UIs and processes likely changed since publication"⟩
       else
         ⟨.needsUpdate, "Old guide — high chance of outdated steps, UI changes, or broken links"⟩) := by
  have hyear : hasYear2039 (lc title) = false := by
    simp only [detectContentType] at h
    split at h
    · exact absurd h (by decide)
    · split at h
      · exact absurd h (by decide)
      · next hcond =>
          simp only [Bool.or_eq_true, not_or, Bool.not_eq_true] at hcond
          exact hcond.1.1
  have h24 : hasYear2024 (lc title) = false := by
    cases h24e : hasYear2024 (lc title) with
    | false => rfl
    | true =>
      have h39 := hasYear2024_imp h24e
      rw [hyear] at h39
      exact absurd h39 (by decide)
  have h25 : has2025 (lc title) = false := by
    cases h25e : has2025 (lc title) with
    | false => rfl
    | true =>
      have h39 := has2025_imp h25e
      rw [hyear] at h39
      exact absurd h39 (by decide)
  refine ⟨hyear, ?_⟩
  simp [assessFreshness, h24, h25]

/-- C10, witness at a concrete input. -/
theorem semiEvergreen_no_year_witness :
    hasYear2039 (lc "How to Stake") = false ∧
    assessFreshness "How to Stake" 5 .semiEvergreen 2030 =
      (if 5 < 12 then ⟨.fresh, "Recent guide — likely still accurate"⟩
       else if 5 < 18 then ⟨.aging, "Guide may have outdated UI screenshots or steps"⟩
       else if 5 < 24 then
         ⟨.stale, "Product UIs and processes likely changed since publication"⟩
       else
         ⟨.needsUpdate, "Old guide — high chance of outdated steps, UI changes, or broken links"⟩) :=
  semiEvergreen_no_year "How to Stake" [] 5 2030 (by decide)

/-- C1 counterexample: with a first row missing its Post URL and a second
valid row, the load returns the single record with id 1 — the rejected row
consumed an id slot, so the ids are not the contiguous 0-based range. -/
theorem ids_not_contiguous :
    (loadArticles 1700000000000 0 noFallback 2023 [rowMissingUrl, rowHowToStake]).map
      (fun a => a.id) = [1] ∧
    (loadArticles 1700000000000 0 noFallback 2023 [rowMissingUrl, rowHowToStake]).map
        (fun a => a.id) ≠
      List.range (loadArticles 1700000000000 0 noFallback 2023
        [rowMissingUrl, rowHowToStake]).length := by
  constructor
  · decide
  · decide

/-- C1 amended: within one load the ids are pairwise distinct and each id is
the 0-based index of its source row among all parsed rows of the file
(rejected rows consume id slots, so the range may have gaps). -/
theorem ids_are_file_indices (nowMs tzMin : Int) (fb : String → Option Int) (cy : Int)
    (rows : List Row) (a : Article) (ha : a ∈ loadArticles nowMs tzMin fb cy rows) :
    ((loadArticles nowMs tzMin fb cy rows).map (fun x => x.id)).Nodup ∧
    a.id < rows.length ∧
    ∃ row, rows[a.id]? = some row ∧
      processRow nowMs tzMin fb cy a.id row = some a := by
  have hperm := loadArticles_perm nowMs tzMin fb cy rows
  refine ⟨?_, ?_⟩
  · have hpw := @buildFrom_ids_pairwise nowMs tzMin fb cy 0 rows
    have hmap : ((buildFrom nowMs tzMin fb cy 0 rows).map (fun x => x.id)).Pairwise (· < ·) :=
      List.pairwise_map.mpr hpw
    have hnd : ((buildFrom nowMs tzMin fb cy 0 rows).map (fun x => x.id)).Nodup :=
      hmap.imp (fun h => Nat.ne_of_lt h)
    exact ((hperm.map (fun x => x.id)).symm).nodup hnd
  · have hmem : a ∈ buildFrom nowMs tzMin fb cy 0 rows :=
      (loadArticles_perm nowMs tzMin fb cy rows).mem_iff.mp ha
    obtain ⟨-, hlt, row, hrow, hpr⟩ := mem_buildFrom hmem
    simp only [Nat.sub_zero] at hlt hrow
    exact ⟨hlt, row, hrow, hpr⟩

/-- C1 amended, witness at a concrete two-row load. -/
theorem ids_are_file_indices_witness :
    ((loadArticles 1700000000000 0 noFallback 2023 [rowMissingUrl, rowHowToStake]).map
      (fun x => x.id)).Nodup ∧
    articleStakeIdx1.id < 2 ∧
    ∃ row, ([rowMissingUrl, rowHowToStake])[articleStakeIdx1.id]? = some row ∧
      processRow 1700000000000 0 noFallback 2023 articleStakeIdx1.id row =
        some articleStakeIdx1 :=
  ids_are_file_indices 1700000000000 0 noFallback 2023 [rowMissingUrl, rowHowToStake]
    articleStakeIdx1 (by decide)

/-- C2 counterexample: a row whose Categories CSV field is non-empty after
splitting and trimming still gets its categories inferred from the title —
the explicit value Podcast is ignored and the record carries Learn. -/
theorem categories_ignore_explicit_csv :
    splitAndClean "Podcast" = ["Podcast"] ∧
    rowExplicitCats.categories = some "Podcast" ∧
    (loadArticles 1700000000000 0 noFallback 2023 [rowExplicitCats]).map
      (fun a => a.categories) = [["Learn"]] ∧
    (["Learn"] : List String) ≠ ["Podcast"] := by
  refine ⟨by decide, by decide, by decide, by decide⟩

/-- C2 amended: the pipeline always infers categories from the title and
never reads the Categories CSV field; explicit CSV tags are preferred when
non-empty after splitting and trimming, and tag inference is used only
otherwise. -/
theorem categories_always_inferred (nowMs tzMin : Int) (fb : String → Option Int) (cy : Int)
    (rows : List Row) (a : Article) (ha : a ∈ loadArticles nowMs tzMin fb cy rows) :
    a.categories = categorizeArticle a.title ∧
    ∃ row, rows[a.id]? = some row ∧
      a.tags = normalizeTags (if 0 < (splitAndClean (row.tags.getD "")).length
        then splitAndClean (row.tags.getD "") else inferTags a.title (categorizeArticle a.title)) := by
  have hmem : a ∈ buildFrom nowMs tzMin fb cy 0 rows :=
    (loadArticles_perm nowMs tzMin fb cy rows).mem_iff.mp ha
  obtain ⟨-, -, row, hrow, hpr⟩ := mem_buildFrom hmem
  simp only [Nat.sub_zero] at hrow
  obtain ⟨-, -, hcats, htags, -⟩ := processRow_fields hpr
  exact ⟨hcats, row, hrow, htags⟩

/-- C2 amended, witness at a concrete load carrying an explicit Categories
value. -/
theorem categories_always_inferred_witness :
    articleCatsIdx0.categories = categorizeArticle articleCatsIdx0.title ∧
    ∃ row, ([rowExplicitCats])[articleCatsIdx0.id]? = some row ∧
      articleCatsIdx0.tags = normalizeTags
        (if 0 < (splitAndClean (row.tags.getD "")).length
         then splitAndClean (row.tags.getD "")
         else inferTags articleCatsIdx0.title (categorizeArticle articleCatsIdx0.title)) :=
  categories_always_inferred 1700000000000 0 noFallback 2023 [rowExplicitCats]
    articleCatsIdx0 (by decide)

/-- C7: for every record of a load, the age in months is the floor of the
elapsed milliseconds divided by 2630016000 (thirty point four four days),
clamped to zero when the publish instant lies in the future; as a natural
number it is non-negative by construction. -/
theorem ageMonths_formula (nowMs tzMin : Int) (fb : String → Option Int) (cy : Int)
    (rows : List Row) (a : Article) (ha : a ∈ loadArticles nowMs tzMin fb cy rows) :
    (a.ageMonths : Int) = max 0 (Int.fdiv (nowMs - a.publishTimestamp) monthMs) := by
  have hmem : a ∈ buildFrom nowMs tzMin fb cy 0 rows :=
    (loadArticles_perm nowMs tzMin fb cy rows).mem_iff.mp ha
  obtain ⟨-, -, row, -, hpr⟩ := mem_buildFrom hmem
  exact (processRow_fields hpr).2.2.2.2.2.2.2.1

/-- C7, witness at a concrete load twenty-three months after publication. -/
theorem ageMonths_formula_witness :
    (articleStakeOld.ageMonths : Int) =
      max 0 (Int.fdiv (1760000000000 - articleStakeOld.publishTimestamp) monthMs) :=
  ageMonths_formula 1760000000000 0 noFallback 2025 [rowHowToStake] articleStakeOld (by decide)

/-- C3 counterexample: the pipeline classifies the title How to Buy Crypto
in 2023 as time-sensitive, not semi-evergreen — the year token fires the
time-sensitive rule before the how-to rule is reached. -/
theorem howToBuy2023_not_semiEvergreen :
    detectContentType "How to Buy Crypto in 2023"
      (categorizeArticle "How to Buy Crypto in 2023") = .timeSensitive ∧
    ContentType.timeSensitive ≠ .semiEvergreen :=
  ⟨by decide, by decide⟩

/-- C3 amended: the title is classified time-sensitive, and for every
current year at least 2025 the time-sensitive explicit-older-year rule
fires at age 20 months, yielding needs-update (the same final verdict the
claim expected, through the time-sensitive branch rather than the
semi-evergreen one). -/
theorem howToBuy2023_needs_update (cy : Int) (h : 2025 ≤ cy) :
    detectContentType "How to Buy Crypto in 2023"
      (categorizeArticle "How to Buy Crypto in 2023") = .timeSensitive ∧
    (assessFreshness "How to Buy Crypto in 2023" 20 .timeSensitive cy).freshness =
      .needsUpdate := by
  refine ⟨by decide, ?_⟩
  have hy : findYearTS none (lc "How to Buy Crypto in 2023") = some 2023 := by decide
  simp only [assessFreshness, hy]
  split
  · rfl
  · exfalso; omega

/-- C3 amended, witness at current year 2025. -/
theorem howToBuy2023_needs_update_witness :
    detectContentType "How to Buy Crypto in 2023"
      (categorizeArticle "How to Buy Crypto in 2023") = .timeSensitive ∧
    (assessFreshness "How to Buy Crypto in 2023" 20 .timeSensitive 2025).freshness =
      .needsUpdate :=
  howToBuy2023_needs_update 2025 (by norm_num)

/-- C4 counterexample: on the title Ethereum Price Prediction 2024 the
category fallback yields Announcements, so the pipeline content type is
news, not time-sensitive. -/
theorem prediction2024_not_timeSensitive :
    detectContentType "Ethereum Price Prediction 2024"
      (categorizeArticle "Ethereum Price Prediction 2024") = .news ∧
    ContentType.news ≠ .timeSensitive :=
  ⟨by decide, by decide⟩

/-- C4 amended: the inferred category of the title is Announcements, hence
the pipeline assigns content type news and the evaluator returns fresh at
age 14; the claimed time-sensitive-to-stale path arises only for category
lists without news-triggering labels, where the title is classified
time-sensitive and the evaluator at current year 2025 returns the stale
tier with the becoming-outdated rationale. -/
theorem prediction2024_pipeline_news :
    categorizeArticle "Ethereum Price Prediction 2024" = ["Announcements"] ∧
    detectContentType "Ethereum Price Prediction 2024"
      (categorizeArticle "Ethereum Price Prediction 2024") = .news ∧
    (assessFreshness "Ethereum Price Prediction 2024" 14 .news 2025).freshness = .fresh ∧
    detectContentType "Ethereum Price Prediction 2024" [] = .timeSensitive ∧
    assessFreshness "Ethereum Price Prediction 2024" 14 .timeSensitive 2025 =
      ⟨.stale, "References 2024 — becoming outdated, consider updating for 2025"⟩ := by
  refine ⟨by decide, by decide, by decide, by decide, by decide⟩

/-- C8: the named-month form and the slashed day/month/year form agree —
concretely, 17 Oct 2023 and 17/10/2023 parse to the same instant and so to
the same ISO publish date (2023-10-17 at UTC); generally, for every valid
civil date the two construction routes produce the same local-midnight
instant. -/
theorem date_forms_agree (tzMin : Int) (fb : String → Option Int) (y m d : Int)
    (hm : 1 ≤ m ∧ m ≤ 12) (hy : 100 ≤ y) (hd : 1 ≤ d ∧ d ≤ daysInMonth y m) :
    ((parseFlexibleDate tzMin fb "17 Oct 2023").map isoDateStr =
        (parseFlexibleDate tzMin fb "17/10/2023").map isoDateStr ∧
      parseFlexibleDate tzMin fb "17 Oct 2023" =
        some (localMidnightMs (daysFromCivil 2023 10 17) tzMin) ∧
      isoDateStr (localMidnightMs (daysFromCivil 2023 10 17) 0) = "2023-10-17") ∧
    namedDateMs y m d tzMin = some (localMidnightMs (daysFromCivil y m d) tzMin) ∧
    jsDateCtorDays y (m - 1) d = daysFromCivil y m d := by
  refine ⟨⟨rfl, rfl, by decide⟩, ?_, ?_⟩
  · simp only [namedDateMs]
    rw [if_pos hd]
  · simp only [jsDateCtorDays]
    rw [if_neg (by omega)]
    have h1 : Int.fdiv (m - 1) 12 = 0 := by
      rw [Int.fdiv_eq_ediv _ (by norm_num)]
      exact Int.ediv_eq_zero_of_lt (by omega) (by omega)
    have h2 : Int.emod (m - 1) 12 = m - 1 := Int.emod_eq_of_lt (by omega) (by omega)
    rw [h1, h2]
    norm_num

/-- C8, witness at the concrete date 17 October 2023 at UTC. -/
theorem date_forms_agree_witness :
    ((parseFlexibleDate 0 noFallback "17 Oct 2023").map isoDateStr =
        (parseFlexibleDate 0 noFallback "17/10/2023").map isoDateStr ∧
      parseFlexibleDate 0 noFallback "17 Oct 2023" =
        some (localMidnightMs (daysFromCivil 2023 10 17) 0) ∧
      isoDateStr (localMidnightMs (daysFromCivil 2023 10 17) 0) = "2023-10-17") ∧
    namedDateMs 2023 10 17 0 = some (localMidnightMs (daysFromCivil 2023 10 17) 0) ∧
    jsDateCtorDays 2023 (10 - 1) 17 = daysFromCivil 2023 10 17 :=
  date_forms_agree 0 noFallback 2023 10 17 (by norm_num) (by norm_num) (by decide)

end Freshtrack
